import Mathlib

/-!
Verification of the skimalens `DataParser` (src/lib/parser.ts).

The parser operates on arbitrary parsed JSON/YAML values, so we model those
values with an inductive `JsonValue` type.  JavaScript objects are modelled as
association lists with unique keys (the JSON parser never produces duplicate
keys); `Object.values` / `Object.keys` become projections of that list, and
property access `obj.k` becomes an `Option`-valued lookup (`none` plays the
role of `undefined`).  JSON numbers are modelled as integers: none of the
verified properties depend on fractional values, only on the linear order.
`Array.prototype.sort` with the parser's comparator is modelled as a stable
sort (insertion sort) by the relation `compare a b ≤ 0`.

`extractChatGPTMessages` is declared in the source against the typed
`ChatGPTConversation` interface (src/types/data.ts), so it is modelled over a
faithful translation of those TypeScript interfaces; `null` and `undefined`
fields become `Option`.
-/

/-- Parsed JSON/YAML value, as consumed by `DataParser.detectDataType`. -/
inductive JsonValue where
  | null : JsonValue
  | bool (b : Bool) : JsonValue
  | num (n : Int) : JsonValue
  | str (s : String) : JsonValue
  | arr (elems : List JsonValue) : JsonValue
  | obj (fields : List (String × JsonValue)) : JsonValue
deriving Repr

/-- Lookup of a key in an object's field list (JS property access on a plain
object; keys are unique, so first match suffices). -/
def getField (fields : List (String × JsonValue)) (key : String) : Option JsonValue :=
  match fields with
  | [] => none
  | (k, v) :: rest => if k == key then some v else getField rest key

/-- JS property access `data[key]`: `none` models `undefined` (also for
property names accessed on arrays and scalars). -/
def jsGet (v : JsonValue) (key : String) : Option JsonValue :=
  match v with
  | .obj fields => getField fields key
  | _ => none

/-- The JS `key in obj` test, for the non-index keys the parser uses. -/
def hasKey (v : JsonValue) (key : String) : Bool :=
  (jsGet v key).isSome

/-- The JS test `data && typeof data === 'object'`: a non-null object, arrays included. -/
def isObjectLike : JsonValue → Bool
  | .arr _ => true
  | .obj _ => true
  | _ => false

/-- Test `typeof x === 'string'` on a possibly-absent property. -/
def isStringVal : Option JsonValue → Bool
  | some (.str _) => true
  | _ => false

/-- Test `typeof x === 'number'` on a possibly-absent property. -/
def isNumberVal : Option JsonValue → Bool
  | some (.num _) => true
  | _ => false

/-- Test `typeof x === 'object' && x !== null && !Array.isArray(x)`. -/
def isPlainObjectVal : Option JsonValue → Bool
  | some (.obj _) => true
  | _ => false

/-- Element check inside `isClaudeConversation`:
`typeof msg === 'object' && msg !== null && 'uuid' in msg && 'text' in msg && 'sender' in msg`. -/
def isClaudeMessageShape (msg : JsonValue) : Bool :=
  isObjectLike msg && hasKey msg "uuid" && hasKey msg "text" && hasKey msg "sender"

/-- Model of `DataParser.isClaudeConversation` (strict single-conversation predicate). -/
def isClaudeConversation (data : JsonValue) : Bool :=
  match data with
  | .obj _ =>
    isStringVal (jsGet data "uuid") &&
    isStringVal (jsGet data "name") &&
    (match jsGet data "chat_messages" with
     | some (.arr msgs) => decide (0 < msgs.length) && msgs.all isClaudeMessageShape
     | _ => false)
  | _ => false

/-- Model of `DataParser.looksLikeClaudeConversation` (loose structural predicate). -/
def looksLikeClaudeConversation (data : JsonValue) : Bool :=
  match data with
  | .obj _ =>
    let hasClaudeFields :=
      hasKey data "chat_messages" && hasKey data "uuid" && hasKey data "name" &&
      hasKey data "created_at" && hasKey data "updated_at"
    match jsGet data "chat_messages" with
    | some (.arr (firstMessage :: _)) =>
      if isObjectLike firstMessage then
        hasClaudeFields &&
        (hasKey firstMessage "uuid" && hasKey firstMessage "sender" &&
         hasKey firstMessage "text" && hasKey firstMessage "created_at")
      else hasClaudeFields
    | _ => hasClaudeFields
  | _ => false

/-- Model of `DataParser.isClaudeConversations` (non-empty array of strict-or-loose
conversations). -/
def isClaudeConversations (data : JsonValue) : Bool :=
  match data with
  | .arr items =>
    if items.length == 0 then false
    else items.all fun item =>
      isClaudeConversation item || looksLikeClaudeConversation item
  | _ => false

/-- Model of `DataParser.isChatGPTConversation` (strict single-conversation predicate). -/
def isChatGPTConversation (data : JsonValue) : Bool :=
  match data with
  | .obj _ =>
    isStringVal (jsGet data "title") &&
    isNumberVal (jsGet data "create_time") &&
    isNumberVal (jsGet data "update_time") &&
    isPlainObjectVal (jsGet data "mapping")
  | _ => false

/-- Model of `DataParser.isChatGPTConversations` (non-empty array of conversations). -/
def isChatGPTConversations (data : JsonValue) : Bool :=
  match data with
  | .arr items =>
    if items.length == 0 then false
    else items.all isChatGPTConversation
  | _ => false

/-- The detector's result type (`DataType` in src/types/data.ts). -/
inductive DataType where
  | claudeConversation : DataType
  | chatgptConversation : DataType
  | cloudwatchLogs : DataType
  | genericJson : DataType
  | genericYaml : DataType
  | unknown : DataType
deriving Repr, DecidableEq

/-- Tests whether `needle` occurs at the start of `hay` (character lists). -/
def startsWithChars : List Char → List Char → Bool
  | _, [] => true
  | [], _ :: _ => false
  | c :: cs, p :: ps => (c == p) && startsWithChars cs ps

/-- Tests whether `needle` occurs somewhere in `hay` (character lists). -/
def containsChars : List Char → List Char → Bool
  | [], needle => startsWithChars [] needle
  | c :: rest, needle => startsWithChars (c :: rest) needle || containsChars rest needle

/-- JS `String.prototype.includes`. -/
def strIncludes (s needle : String) : Bool :=
  containsChars s.toList needle.toList

/-- Model of `DataParser.detectDataType` (src/lib/parser.ts, full version with the
ChatGPT structural checks). -/
def detectDataType (data : JsonValue) (filename : String) : DataType :=
  if !(isObjectLike data) then .unknown
  else if isClaudeConversation data then .claudeConversation
  else if isClaudeConversations data then .claudeConversation
  else if looksLikeClaudeConversation data then .claudeConversation
  else if isChatGPTConversation data then .chatgptConversation
  else if isChatGPTConversations data then .chatgptConversation
  else if strIncludes filename.toLower "chatgpt" ||
          (strIncludes filename.toLower "conversation" &&
           !(strIncludes filename.toLower "claude")) then .chatgptConversation
  else if strIncludes filename.toLower "cloudwatch" ||
          strIncludes filename.toLower "log" then .cloudwatchLogs
  else .genericJson

/-- The value `data.chat_messages.length`, as read by the estimator's strict
single-conversation branch (only used under the guard
`isClaudeConversation data`, which forces `chat_messages` to be an array and
makes the default 0 unreachable).  The loose-matched array elements go
through `chatMessagesLengthJs` below instead, which keeps the JS property
semantics. -/
def chatMessagesLength (data : JsonValue) : Nat :=
  match jsGet data "chat_messages" with
  | some (.arr msgs) => msgs.length
  | _ => 0

/-- The value `Object.keys(data.mapping).length` (only used under the guard
`isChatGPTConversation data`, which makes the default 0 unreachable). -/
def mappingKeyCount (data : JsonValue) : Nat :=
  match jsGet data "mapping" with
  | some (.obj fields) => fields.length
  | _ => 0

/-- The sum `data.reduce((total, conv) => total + Object.keys(conv.mapping).length, 0)`
(every element of a payload passing `isChatGPTConversations` has a plain
object `mapping`, so this reduce stays on integer lengths). -/
def chatgptMappingTotal (items : List JsonValue) : Nat :=
  items.foldl (fun total conv => total + mappingKeyCount conv) 0

/-- Spec-side sum of `chat_messages` array lengths ("the sum of
`chat_messages` lengths over all conversations").  The amended C4 compares
the JS-evaluated reduce below against this value on payloads where every
element's `chat_messages` actually is an array. -/
def specClaudeMessagesSum (items : List JsonValue) : Nat :=
  items.foldl (fun total conv => total + chatMessagesLength conv) 0

/-! JS evaluation semantics for the Claude-array reduce
`data.reduce((total, conv) => total + conv.chat_messages.length, 0)`.
`isClaudeConversations` admits loose-matched elements whose `chat_messages`
need not be an array, so the reduce follows the JS rules: `.length` on an
array or string is its length, on a plain object its `length` property
(possibly undefined), on `null`/`undefined` it throws a TypeError, and on
the other primitives it is undefined; `total + x` then applies JS `+` with
`ToPrimitive`/`ToString`/`ToNumber` coercions (NaN and string concatenation
included). -/

/-- A JS number reachable in the reduce: an integer or NaN. -/
inductive JsNumber where
  | int (n : Int) : JsNumber
  | nan : JsNumber
deriving Repr, DecidableEq

/-- The reduce accumulator: a JS number, or a string once `+` has
concatenated. -/
inductive JsAccum where
  | num (n : JsNumber) : JsAccum
  | str (s : String) : JsAccum
deriving Repr, DecidableEq

mutual

/-- JS `ToString` of a value: arrays join their elements with "," (null
elements render empty), plain objects render "[object Object]". -/
def jsStringOfValue : JsonValue → String
  | .null => "null"
  | .bool b => cond b "true" "false"
  | .num n => toString n
  | .str s => s
  | .obj _ => "[object Object]"
  | .arr xs => jsJoinElems xs
termination_by v => (sizeOf v, 0)

/-- Join of array elements with "," for the JS array `toString`. -/
def jsJoinElems : List JsonValue → String
  | [] => ""
  | x :: xs => jsElemStr x ++ (if xs.isEmpty then "" else ",") ++ jsJoinElems xs
termination_by xs => (sizeOf xs, 2)

/-- One array element in a join: `null` renders as the empty string. -/
def jsElemStr : JsonValue → String
  | .null => ""
  | v => jsStringOfValue v
termination_by v => (sizeOf v, 1)

end

/-- JS `ToPrimitive` of a possibly-undefined value (`none` is undefined):
arrays convert via their join string, plain objects via
"[object Object]"; primitives are unchanged. -/
def jsToPrimitive : Option JsonValue → Option JsonValue
  | some (.arr xs) => some (.str (jsStringOfValue (.arr xs)))
  | some (.obj _) => some (.str "[object Object]")
  | v => v

/-- JS `ToNumber` on the non-string primitives the reduce can add
(`undefined` is NaN, `null` is 0); the remaining cases are unreachable after
`jsToPrimitive` and the string test in `jsAdd`. -/
def jsToNumberPrim : Option JsonValue → JsNumber
  | none => .nan
  | some .null => .int 0
  | some (.bool b) => .int (cond b 1 0)
  | some (.num n) => .int n
  | some _ => .nan

/-- Addition of JS numbers; NaN propagates. -/
def jsNumberAdd : JsNumber → JsNumber → JsNumber
  | .int a, .int b => .int (a + b)
  | _, _ => .nan

/-- JS `ToString` of the accumulator. -/
def jsStringOfAccum : JsAccum → String
  | .num (.int n) => toString n
  | .num .nan => "NaN"
  | .str s => s

/-- JS `ToString` of a primitive operand of `+`. -/
def jsStringOfPrim : Option JsonValue → String
  | none => "undefined"
  | some v => jsStringOfValue v

/-- JS `total + v` where `total` is the reduce accumulator: after
`ToPrimitive`, a string on either side concatenates; otherwise both sides
convert with `ToNumber` and add. -/
def jsAdd (total : JsAccum) (v : Option JsonValue) : JsAccum :=
  match total, jsToPrimitive v with
  | .str s, p => .str (s ++ jsStringOfPrim p)
  | .num n, some (.str s) => .str (jsStringOfAccum (.num n) ++ s)
  | .num n, p => .num (jsNumberAdd n (jsToNumberPrim p))

/-- JS `v.length`: arrays and strings yield their length, a plain object its
`length` key (absent key is undefined), `null` throws a TypeError, and the
other primitives yield undefined.  (String length is modelled as the
character count; JS counts UTF-16 code units, which agree on the payloads
considered here.) -/
def jsLengthProp : JsonValue → Except String (Option JsonValue)
  | .arr xs => .ok (some (.num xs.length))
  | .str s => .ok (some (.num s.length))
  | .obj fields => .ok (getField fields "length")
  | .null => .error "TypeError: Cannot read properties of null (reading 'length')"
  | .bool _ => .ok none
  | .num _ => .ok none

/-- The JS evaluation of `conv.chat_messages.length`: an absent
`chat_messages` key reads `.length` from `undefined`, which also throws.
(For a non-object `conv` — unreachable under the array guard — the model
throws here as well, though the engine would already throw on the
`chat_messages` read when `conv` is null.) -/
def chatMessagesLengthJs (conv : JsonValue) : Except String (Option JsonValue) :=
  match jsGet conv "chat_messages" with
  | none => .error "TypeError: Cannot read properties of undefined (reading 'length')"
  | some v => jsLengthProp v

/-- The reduce `data.reduce((total, conv) => total + conv.chat_messages.length, 0)`
evaluated left to right; the first thrown TypeError aborts it. -/
def claudeMessagesTotalJs (total : JsAccum) : List JsonValue → Except String JsAccum
  | [] => .ok total
  | conv :: rest =>
    match chatMessagesLengthJs conv with
    | .error e => .error e
    | .ok lenv => claudeMessagesTotalJs (jsAdd total lenv) rest

/-- Model of `DataParser.estimateRecordCount` with JS evaluation semantics:
the result is either a thrown TypeError (`Except.error`) or the returned
value — a JS number, a string after `+` coercion, or `undefined` (`none`).
Every branch except the Claude-array reduce computes lengths of values its
guard has already checked, so only that reduce can throw or coerce. -/
def estimateRecordCount (data : JsonValue) (dataType : DataType) :
    Except String (Option JsAccum) :=
  if dataType == .claudeConversation && isClaudeConversation data then
    .ok (some (.num (.int (chatMessagesLength data))))
  else if dataType == .claudeConversation && isClaudeConversations data then
    match data with
    | .arr items =>
      (match claudeMessagesTotalJs (.num (.int 0)) items with
       | .error e => .error e
       | .ok total => .ok (some total))
    | _ => .ok none
  else if dataType == .chatgptConversation && isChatGPTConversation data then
    .ok (some (.num (.int (mappingKeyCount data))))
  else if dataType == .chatgptConversation && isChatGPTConversations data then
    .ok (some (.num (.int (match data with
                           | .arr items => chatgptMappingTotal items
                           | _ => 0))))
  else
    match data with
    | .arr items => .ok (some (.num (.int items.length)))
    | _ => .ok none

/-- Model of `DataParser.validateClaudeConversation`: the thrown `Error` becomes the
`Except.error` branch carrying the same message. -/
def validateClaudeConversation (data : JsonValue) : Except String JsonValue :=
  if isClaudeConversation data then .ok data
  else if isClaudeConversations data then .ok data
  else .error "Invalid Claude conversation format"

/-- Model of `DataParser.validateChatGPTConversation`. -/
def validateChatGPTConversation (data : JsonValue) : Except String JsonValue :=
  if isChatGPTConversation data then .ok data
  else if isChatGPTConversations data then .ok data
  else .error "Invalid ChatGPT conversation format"

/-! Typed model of the `ChatGPTConversation` interfaces from
src/types/data.ts, used by `DataParser.extractChatGPTMessages`. -/

/-- The `author` field of a `ChatGPTMessage`. -/
structure ChatGPTAuthor where
  role : String
  name : Option String := none
deriving Repr, DecidableEq

/-- The `content` field of a `ChatGPTMessage`; an element of `parts` that is
`null` or `undefined` is modelled as `none`. -/
structure ChatGPTContent where
  content_type : String
  parts : List (Option String)
deriving Repr, DecidableEq

/-- The `ChatGPTMessage` interface. -/
structure ChatGPTMessage where
  id : String
  author : ChatGPTAuthor
  create_time : Option Int
  content : Option ChatGPTContent
  status : String
  weight : Int
  recipient : String
deriving Repr, DecidableEq

/-- The `ChatGPTMappingNode` interface (`message` is nullable). -/
structure ChatGPTMappingNode where
  id : String
  message : Option ChatGPTMessage
  parent : Option String
  children : List String
deriving Repr, DecidableEq

/-- The `ChatGPTConversation` interface; `mapping` is a keyed collection,
modelled as an association list in key insertion order. -/
structure ChatGPTConversation where
  id : String
  title : String
  create_time : Int
  update_time : Int
  mapping : List (String × ChatGPTMappingNode)
deriving Repr, DecidableEq

/-- Whitespace as stripped by JS `String.prototype.trim` (ASCII part of the
WhiteSpace and LineTerminator productions). -/
def isJsSpace (c : Char) : Bool :=
  c == ' ' || c == '\t' || c == '\n' || c == '\r' || c == '\x0b' || c == '\x0c'

/-- Strip leading and trailing whitespace from a character list. -/
def trimChars (cs : List Char) : List Char :=
  ((cs.dropWhile isJsSpace).reverse.dropWhile isJsSpace).reverse

/-- JS `String.prototype.trim`. -/
def jsTrim (s : String) : String :=
  String.mk (trimChars s.data)

/-- The filter condition of `extractChatGPTMessages` on a non-null message:
`author.role !== 'system' && content?.parts && Array.isArray(parts) &&
parts.length > 0 && parts.some(part => typeof part === 'string' &&
part.trim() !== '')`.  (On the typed model, `parts` of a present `content` is
always an array, so the truthiness and `Array.isArray` checks hold.) -/
def keepMessage (m : ChatGPTMessage) : Bool :=
  (m.author.role != "system") &&
  (match m.content with
   | some content =>
     decide (0 < content.parts.length) &&
     content.parts.any (fun part =>
       match part with
       | some s => jsTrim s != ""
       | none => false)
   | none => false)

/-- The `Object.values(mapping).forEach` loop of `extractChatGPTMessages`:
collect, in mapping order, every non-null embedded message passing the
filter. -/
def collectMessages : List ChatGPTMappingNode → List ChatGPTMessage
  | [] => []
  | node :: rest =>
    match node.message with
    | some m =>
      if keepMessage m then m :: collectMessages rest else collectMessages rest
    | none => collectMessages rest

/-- The sort comparator of `extractChatGPTMessages`:
`(a, b) => a.create_time === null ? -1 : b.create_time === null ? 1 :
a.create_time - b.create_time`. -/
def compareCreateTime (a b : ChatGPTMessage) : Int :=
  match a.create_time with
  | none => -1
  | some x =>
    match b.create_time with
    | none => 1
    | some y => x - y

/-- The ordering induced by the comparator: `a` may come before `b` exactly
when `compareCreateTime a b ≤ 0`. -/
def msgLe (a b : ChatGPTMessage) : Prop :=
  compareCreateTime a b ≤ 0

instance : DecidableRel msgLe :=
  fun a b => Int.decLe (compareCreateTime a b) 0

instance : IsTotal ChatGPTMessage msgLe where
  total a b := by
    cases ha : a.create_time <;> cases hb : b.create_time <;>
      simp [msgLe, compareCreateTime, ha, hb]
    omega

instance : IsTrans ChatGPTMessage msgLe where
  trans a b c hab hbc := by
    unfold msgLe compareCreateTime at hab hbc ⊢
    cases ha : a.create_time <;> cases hb : b.create_time <;>
      cases hc : c.create_time <;> simp_all
    omega

/-- Model of `messages.sort(comparator)`: a stable sort by the induced
ordering. -/
def sortByCreateTime (messages : List ChatGPTMessage) : List ChatGPTMessage :=
  List.insertionSort msgLe messages

/-- Model of `DataParser.extractChatGPTMessages`. -/
def extractChatGPTMessages (conversation : ChatGPTConversation) : List ChatGPTMessage :=
  sortByCreateTime (collectMessages (conversation.mapping.map Prod.snd))

/-! Helper lemmas. -/

/-- Unfolding `collectMessages` past a node without a message. -/
theorem collectMessages_cons_none {node : ChatGPTMappingNode}
    {rest : List ChatGPTMappingNode} (h : node.message = none) :
    collectMessages (node :: rest) = collectMessages rest := by
  conv_lhs => unfold collectMessages
  rw [h]

/-- Unfolding `collectMessages` at a kept message. -/
theorem collectMessages_cons_keep {node : ChatGPTMappingNode}
    {rest : List ChatGPTMappingNode} {mcur : ChatGPTMessage}
    (h : node.message = some mcur) (hk : keepMessage mcur = true) :
    collectMessages (node :: rest) = mcur :: collectMessages rest := by
  conv_lhs => unfold collectMessages
  rw [h]
  simp [hk]

/-- Unfolding `collectMessages` at a filtered-out message. -/
theorem collectMessages_cons_skip {node : ChatGPTMappingNode}
    {rest : List ChatGPTMappingNode} {mcur : ChatGPTMessage}
    (h : node.message = some mcur) (hk : keepMessage mcur = false) :
    collectMessages (node :: rest) = collectMessages rest := by
  conv_lhs => unfold collectMessages
  rw [h]
  simp [hk]

/-- A message is collected exactly when some node embeds it and it passes the
filter. -/
theorem mem_collectMessages {nodes : List ChatGPTMappingNode} {m : ChatGPTMessage} :
    m ∈ collectMessages nodes ↔
      ∃ node ∈ nodes, node.message = some m ∧ keepMessage m = true := by
  induction nodes with
  | nil => simp [collectMessages]
  | cons node rest ih =>
    cases hmsg : node.message with
    | none =>
      rw [collectMessages_cons_none hmsg, ih]
      constructor
      · rintro ⟨n, hn, hp⟩
        exact ⟨n, List.mem_cons_of_mem _ hn, hp⟩
      · rintro ⟨n, hn, hp⟩
        rcases List.mem_cons.mp hn with heq | ht
        · subst heq
          rw [hmsg] at hp
          exact absurd hp.1 (by simp)
        · exact ⟨n, ht, hp⟩
    | some mcur =>
      by_cases hk : keepMessage mcur = true
      · rw [collectMessages_cons_keep hmsg hk, List.mem_cons, ih]
        constructor
        · rintro (heq | ⟨n, hn, hp⟩)
          · subst heq
            exact ⟨node, List.mem_cons_self _ _, hmsg, hk⟩
          · exact ⟨n, List.mem_cons_of_mem _ hn, hp⟩
        · rintro ⟨n, hn, hp⟩
          rcases List.mem_cons.mp hn with heq | ht
          · subst heq
            rw [hmsg] at hp
            exact Or.inl (Option.some.inj hp.1).symm
          · exact Or.inr ⟨n, ht, hp⟩
      · rw [Bool.not_eq_true] at hk
        rw [collectMessages_cons_skip hmsg hk, ih]
        constructor
        · rintro ⟨n, hn, hp⟩
          exact ⟨n, List.mem_cons_of_mem _ hn, hp⟩
        · rintro ⟨n, hn, hp⟩
          rcases List.mem_cons.mp hn with heq | ht
          · subst heq
            rw [hmsg] at hp
            obtain ⟨hpe, hpk⟩ := hp
            have hcm : mcur = m := Option.some.inj hpe
            subst hcm
            rw [hk] at hpk
            exact absurd hpk (by simp)
          · exact ⟨n, ht, hp⟩

/-- The per-element test on `parts`, as a proposition. -/
theorem partCheck_iff {part : Option String} :
    (match part with
     | some s => jsTrim s != ""
     | none => false) = true ↔ ∃ s, part = some s ∧ jsTrim s ≠ "" := by
  cases part <;> simp

/-- The message filter, as a proposition. -/
theorem keepMessage_iff {m : ChatGPTMessage} :
    keepMessage m = true ↔
      m.author.role ≠ "system" ∧
      ∃ content, m.content = some content ∧ content.parts ≠ [] ∧
        ∃ part ∈ content.parts, ∃ s, part = some s ∧ jsTrim s ≠ "" := by
  unfold keepMessage
  cases hc : m.content with
  | none => simp
  | some content =>
    simp only [Bool.and_eq_true, bne_iff_ne, ne_eq, decide_eq_true_eq,
      List.any_eq_true, Option.some.injEq]
    constructor
    · rintro ⟨hrole, hlen, part, hp, hcheck⟩
      exact ⟨hrole, content, rfl, List.length_pos.mp hlen, part, hp,
        partCheck_iff.mp hcheck⟩
    · rintro ⟨hrole, content2, heq, hne, part, hp, s, hps, hs⟩
      subst heq
      exact ⟨hrole, List.length_pos.mpr hne, part, hp,
        partCheck_iff.mpr ⟨s, hps, hs⟩⟩

/-- The comparator ordering, as a proposition. -/
theorem msgLe_iff {a b : ChatGPTMessage} :
    msgLe a b ↔
      a.create_time = none ∨
      ∃ x y, a.create_time = some x ∧ b.create_time = some y ∧ x ≤ y := by
  unfold msgLe compareCreateTime
  cases ha : a.create_time <;> cases hb : b.create_time <;>
    simp [sub_nonpos]

/-- Shifting the start value out of an additive fold. -/
theorem foldlAddShift (g : JsonValue → Nat) (items : List JsonValue) (n : Nat) :
    items.foldl (fun total conv => total + g conv) n =
      n + items.foldl (fun total conv => total + g conv) 0 := by
  induction items generalizing n with
  | nil => simp
  | cons x xs ih =>
    simp only [List.foldl_cons]
    rw [ih (n + g x), ih (0 + g x)]
    omega

/-- Unfolding the spec-side sum at a cons. -/
theorem specClaudeMessagesSum_cons (conv : JsonValue) (rest : List JsonValue) :
    specClaudeMessagesSum (conv :: rest) =
      chatMessagesLength conv + specClaudeMessagesSum rest := by
  unfold specClaudeMessagesSum
  simp only [List.foldl_cons]
  rw [foldlAddShift chatMessagesLength rest (0 + chatMessagesLength conv)]
  omega

/-- The per-element JS read throws exactly on a null or absent
`chat_messages`. -/
theorem chatMessagesLengthJs_isError {conv : JsonValue} :
    (∃ e, chatMessagesLengthJs conv = .error e) ↔
      (jsGet conv "chat_messages" = some JsonValue.null ∨
       jsGet conv "chat_messages" = none) := by
  unfold chatMessagesLengthJs
  cases h : jsGet conv "chat_messages" with
  | none => simp
  | some v => cases v <;> simp [jsLengthProp]

/-- The JS reduce throws exactly when some element's read throws. -/
theorem claudeMessagesTotalJs_isError {items : List JsonValue} {total : JsAccum} :
    (∃ e, claudeMessagesTotalJs total items = .error e) ↔
      ∃ conv ∈ items, ∃ e, chatMessagesLengthJs conv = .error e := by
  induction items generalizing total with
  | nil => simp [claudeMessagesTotalJs]
  | cons conv rest ih =>
    cases hc : chatMessagesLengthJs conv with
    | error e =>
      have hstep : claudeMessagesTotalJs total (conv :: rest) = .error e := by
        conv_lhs => unfold claudeMessagesTotalJs
        rw [hc]
      rw [hstep]
      constructor
      · intro _
        exact ⟨conv, List.mem_cons_self _ _, e, hc⟩
      · intro _
        exact ⟨e, rfl⟩
    | ok lenv =>
      have hstep : claudeMessagesTotalJs total (conv :: rest) =
          claudeMessagesTotalJs (jsAdd total lenv) rest := by
        conv_lhs => unfold claudeMessagesTotalJs
        rw [hc]
      rw [hstep, ih]
      constructor
      · rintro ⟨c, hcm, he⟩
        exact ⟨c, List.mem_cons_of_mem _ hcm, he⟩
      · rintro ⟨c, hcm, he⟩
        rcases List.mem_cons.mp hcm with heq | hcm2
        · subst heq
          obtain ⟨e, he2⟩ := he
          rw [hc] at he2
          exact absurd he2 (by simp)
        · exact ⟨c, hcm2, he⟩

/-- On elements whose `chat_messages` all are arrays, the JS reduce is the
plain sum of their lengths. -/
theorem claudeMessagesTotalJs_allArrays {items : List JsonValue}
    (h : ∀ conv ∈ items, ∃ msgs, jsGet conv "chat_messages" = some (JsonValue.arr msgs)) :
    ∀ t : Int, claudeMessagesTotalJs (.num (.int t)) items =
      .ok (.num (.int (t + specClaudeMessagesSum items))) := by
  induction items with
  | nil =>
    intro t
    simp [claudeMessagesTotalJs, specClaudeMessagesSum]
  | cons conv rest ih =>
    intro t
    obtain ⟨msgs, hm⟩ := h conv (List.mem_cons_self _ _)
    have hlen : chatMessagesLength conv = msgs.length := by
      unfold chatMessagesLength
      rw [hm]
    have hstep : chatMessagesLengthJs conv = .ok (some (.num msgs.length)) := by
      unfold chatMessagesLengthJs
      rw [hm]
      rfl
    have hrec : claudeMessagesTotalJs (.num (.int t)) (conv :: rest) =
        claudeMessagesTotalJs (.num (.int (t + msgs.length))) rest := by
      conv_lhs =>
        unfold claudeMessagesTotalJs
        rw [hstep]
      rfl
    have harith : t + (msgs.length : Int) + (specClaudeMessagesSum rest : Int) =
        t + ((msgs.length + specClaudeMessagesSum rest : Nat) : Int) := by
      push_cast
      ring
    rw [hrec, ih (fun c hc => h c (List.mem_cons_of_mem _ hc)) (t + msgs.length),
      specClaudeMessagesSum_cons, hlen, harith]

/-! Claim theorems. -/

/-- C2: a mapping node's embedded message appears in the output of
`extractChatGPTMessages` if and only if the node's `message` is non-null, the
message's `author.role` is not `system`, its `content.parts` exists and is a
non-empty array, and at least one element of `parts` is a string that is
non-empty after trimming; in particular system-role messages and messages
whose parts are all absent, empty, or whitespace-only never appear. -/
theorem extractMessages_mem_iff (conversation : ChatGPTConversation)
    (m : ChatGPTMessage) :
    m ∈ extractChatGPTMessages conversation ↔
      (∃ node ∈ conversation.mapping.map Prod.snd, node.message = some m) ∧
      m.author.role ≠ "system" ∧
      ∃ content, m.content = some content ∧ content.parts ≠ [] ∧
        ∃ part ∈ content.parts, ∃ s, part = some s ∧ jsTrim s ≠ "" := by
  unfold extractChatGPTMessages sortByCreateTime
  rw [List.mem_insertionSort, mem_collectMessages]
  constructor
  · rintro ⟨node, hn, hmsg, hk⟩
    exact ⟨⟨node, hn, hmsg⟩, keepMessage_iff.mp hk⟩
  · rintro ⟨⟨node, hn, hmsg⟩, hcond⟩
    exact ⟨node, hn, hmsg, keepMessage_iff.mpr hcond⟩

/-- C3: the output of `extractChatGPTMessages` is sorted ascending by
`create_time` with null treated as the minimum: for any two adjacent output
elements `a, b`, either `a.create_time` is null, or `b.create_time` is null,
or `a.create_time ≤ b.create_time`. -/
theorem extractMessages_sorted_by_create_time (conversation : ChatGPTConversation) :
    List.Chain' (fun a b : ChatGPTMessage =>
        a.create_time = none ∨ b.create_time = none ∨
        ∃ x y, a.create_time = some x ∧ b.create_time = some y ∧ x ≤ y)
      (extractChatGPTMessages conversation) := by
  unfold extractChatGPTMessages sortByCreateTime
  have hp : List.Pairwise msgLe
      (List.insertionSort msgLe (collectMessages (conversation.mapping.map Prod.snd))) :=
    List.sorted_insertionSort msgLe _
  refine List.Chain'.imp (fun a b hab => ?_) hp.chain'
  rcases msgLe_iff.mp hab with h | ⟨x, y, hx, hy, hxy⟩
  · exact Or.inl h
  · exact Or.inr (Or.inr ⟨x, y, hx, hy, hxy⟩)

/-- C7: applying the `create_time` comparator sort a second time to the
already-sorted list returned by `extractChatGPTMessages` yields the identical
sequence. -/
theorem extractMessages_sort_idempotent (conversation : ChatGPTConversation) :
    sortByCreateTime (extractChatGPTMessages conversation) =
      extractChatGPTMessages conversation := by
  unfold extractChatGPTMessages sortByCreateTime
  exact List.Sorted.insertionSort_eq (List.sorted_insertionSort msgLe _)

/-- C10: `extractChatGPTMessages` passes surviving messages through
unchanged: every element of the output is exactly (Lean equality, hence with
all fields preserved, `content.parts` included) the message embedded in some
mapping node of the input.  The source function only reads its argument, and
the model is a pure function, so the input conversation is unmodified. -/
theorem extractMessages_passthrough (conversation : ChatGPTConversation)
    (m : ChatGPTMessage) (hm : m ∈ extractChatGPTMessages conversation) :
    ∃ node ∈ conversation.mapping.map Prod.snd, node.message = some m := by
  unfold extractChatGPTMessages sortByCreateTime at hm
  rw [List.mem_insertionSort] at hm
  obtain ⟨node, hn, hmsg, _⟩ := mem_collectMessages.mp hm
  exact ⟨node, hn, hmsg⟩

/-- Witness for C10: a concrete conversation whose single user message (with
a whitespace-padded part kept verbatim) survives extraction. -/
theorem extractMessages_passthrough_witness :
    ∃ node ∈ (ChatGPTConversation.mk "conv" "Title" 1 2
        [("root", ⟨"root", none, none, ["child"]⟩),
         ("child", ⟨"child",
            some ⟨"msg1", ⟨"user", none⟩, some 7,
              some ⟨"text", [none, some " hi "]⟩, "finished", 1, "all"⟩,
            some "root", []⟩)]).mapping.map Prod.snd,
      node.message = some ⟨"msg1", ⟨"user", none⟩, some 7,
        some ⟨"text", [none, some " hi "]⟩, "finished", 1, "all"⟩ :=
  extractMessages_passthrough _ _ (by decide)

/-- C1: for every payload satisfying the strict ChatGPT single-conversation
predicate (non-null, non-array object with a string `title`, numeric
`create_time`, numeric `update_time`, and a non-array non-null object
`mapping`) that satisfies none of the Claude detection predicates, `detectDataType`
returns `chatgpt-conversation` for every filename: structural ChatGPT
detection fires before the filename-hint fallback. -/
theorem detect_structural_chatgpt_any_filename (data : JsonValue) (filename : String)
    (hgpt : isChatGPTConversation data = true)
    (hc1 : isClaudeConversation data = false)
    (hc2 : isClaudeConversations data = false)
    (hc3 : looksLikeClaudeConversation data = false) :
    detectDataType data filename = DataType.chatgptConversation := by
  cases data
  case obj fields =>
    simp [detectDataType, isObjectLike, hc1, hc2, hc3, hgpt]
  all_goals simp [isChatGPTConversation] at hgpt

/-- Witness payload: a minimal strict ChatGPT single conversation with two
mapping keys, only one of which holds a message. -/
def sampleChatGPTPayload : JsonValue :=
  .obj [("title", .str "T"), ("create_time", .num 1),
    ("update_time", .num 2), ("mapping", .obj [("a", .obj []), ("b", .obj [])])]

/-- Witness payload: a minimal strict Claude single conversation with one
message. -/
def sampleClaudePayload : JsonValue :=
  .obj [("uuid", .str "u1"), ("name", .str "Test"),
    ("chat_messages", .arr [.obj [("uuid", .str "m1"), ("text", .str "hi"),
      ("sender", .str "human")]])]

/-- Witness payload: a conversation object that only passes the loose Claude
structural check (five keys, empty `chat_messages`). -/
def sampleLooseClaudePayload : JsonValue :=
  .obj [("uuid", .str "u2"), ("name", .str "M"), ("created_at", .str "a"),
    ("updated_at", .str "b"), ("chat_messages", .arr [])]

/-- Witness for C1: the ChatGPT payload presented with a filename whose hints
point at Claude and CloudWatch. -/
theorem detect_structural_chatgpt_any_filename_witness :
    detectDataType sampleChatGPTPayload "claude-log.json" =
      DataType.chatgptConversation :=
  detect_structural_chatgpt_any_filename sampleChatGPTPayload "claude-log.json"
    rfl rfl rfl rfl

/-- C4 counterexample: both payloads are arrays of loose-matched Claude
conversations (and are detected as `claude-conversation`); with
`chat_messages: null` the estimator throws a TypeError on
`conv.chat_messages.length`, refuting "it never throws for any input", and
with `chat_messages: "oops"` it returns the JS string length 4 rather than a
`chat_messages` list length. -/
theorem estimateRecordCount_counterexample :
    detectDataType (.arr [.obj [("uuid", .str "u"), ("name", .str "n"),
      ("created_at", .str "c"), ("updated_at", .str "d"), ("chat_messages", .null)]])
      "export.json" = DataType.claudeConversation ∧
    estimateRecordCount (.arr [.obj [("uuid", .str "u"), ("name", .str "n"),
      ("created_at", .str "c"), ("updated_at", .str "d"), ("chat_messages", .null)]])
      .claudeConversation =
      .error "TypeError: Cannot read properties of null (reading 'length')" ∧
    estimateRecordCount (.arr [.obj [("uuid", .str "u"), ("name", .str "n"),
      ("created_at", .str "c"), ("updated_at", .str "d"), ("chat_messages", .str "oops")]])
      .claudeConversation = .ok (some (.num (.int 4))) :=
  ⟨rfl, rfl, rfl⟩

/-- C4 (amended): the record-count estimator returns the `chat_messages`
length for a strict single Claude conversation; for a Claude conversation
array it returns the JS-evaluated reduce of `conv.chat_messages.length`,
which equals the summed `chat_messages` lengths whenever every element's
`chat_messages` is an array; it returns the number of `mapping` keys (raw
node count, not the post-filter message count) for a strict single ChatGPT
conversation and the summed mapping key counts for a ChatGPT conversation
array; and it throws (a TypeError) exactly when the kind is
`claude-conversation`, the payload fails the strict single predicate but
passes the array predicate, and some element's `chat_messages` is null or
absent — on every other input it does not throw. -/
theorem estimateRecordCount_spec :
    (∀ data : JsonValue, isClaudeConversation data = true →
      estimateRecordCount data .claudeConversation =
        .ok (some (.num (.int (chatMessagesLength data))))) ∧
    (∀ items : List JsonValue, isClaudeConversations (.arr items) = true →
      (∀ conv ∈ items, ∃ msgs, jsGet conv "chat_messages" = some (.arr msgs)) →
      estimateRecordCount (.arr items) .claudeConversation =
        .ok (some (.num (.int (specClaudeMessagesSum items))))) ∧
    (∀ data : JsonValue, isChatGPTConversation data = true →
      estimateRecordCount data .chatgptConversation =
        .ok (some (.num (.int (mappingKeyCount data))))) ∧
    (∀ items : List JsonValue, isChatGPTConversations (.arr items) = true →
      estimateRecordCount (.arr items) .chatgptConversation =
        .ok (some (.num (.int (chatgptMappingTotal items))))) ∧
    (∀ (data : JsonValue) (dataType : DataType),
      (∃ e, estimateRecordCount data dataType = .error e) ↔
        (dataType = .claudeConversation ∧ isClaudeConversation data = false ∧
         isClaudeConversations data = true ∧
         ∃ items, data = .arr items ∧ ∃ conv ∈ items,
           (jsGet conv "chat_messages" = some JsonValue.null ∨
            jsGet conv "chat_messages" = none))) := by
  refine ⟨fun data h => ?_, fun items h hall => ?_, fun data h => ?_,
    fun items h => ?_, fun data dataType => ?_⟩
  · simp [estimateRecordCount, h]
  · have hs : isClaudeConversation (.arr items) = false := rfl
    have hred := claudeMessagesTotalJs_allArrays hall 0
    simp [estimateRecordCount, hs, h, hred]
  · have e1 : (DataType.chatgptConversation == DataType.claudeConversation) = false := rfl
    simp [estimateRecordCount, e1, h]
  · have e1 : (DataType.chatgptConversation == DataType.claudeConversation) = false := rfl
    have hs : isChatGPTConversation (.arr items) = false := rfl
    simp [estimateRecordCount, e1, hs, h]
  · by_cases hk : dataType = DataType.claudeConversation
    · subst hk
      by_cases h1 : isClaudeConversation data = true
      · simp [estimateRecordCount, h1]
      · rw [Bool.not_eq_true] at h1
        by_cases h2 : isClaudeConversations data = true
        · cases data with
          | null => simp [isClaudeConversations] at h2
          | bool b => simp [isClaudeConversations] at h2
          | num n => simp [isClaudeConversations] at h2
          | str s => simp [isClaudeConversations] at h2
          | obj fs => simp [isClaudeConversations] at h2
          | arr items =>
            have hiff2 : (∃ e, claudeMessagesTotalJs (.num (.int 0)) items = .error e) ↔
                ∃ conv ∈ items, (jsGet conv "chat_messages" = some JsonValue.null ∨
                  jsGet conv "chat_messages" = none) := by
              rw [claudeMessagesTotalJs_isError]
              constructor
              · rintro ⟨conv, hc, he⟩
                exact ⟨conv, hc, chatMessagesLengthJs_isError.mp he⟩
              · rintro ⟨conv, hc, hcase⟩
                exact ⟨conv, hc, chatMessagesLengthJs_isError.mpr hcase⟩
            have hcalc : estimateRecordCount (JsonValue.arr items) DataType.claudeConversation =
                (match claudeMessagesTotalJs (.num (.int 0)) items with
                 | .error e => Except.error e
                 | .ok total => Except.ok (some total)) := by
              simp [estimateRecordCount, h1, h2]
            rw [hcalc]
            cases hr : claudeMessagesTotalJs (.num (.int 0)) items with
            | error e =>
              constructor
              · intro _
                obtain ⟨conv, hc, hcase⟩ := hiff2.mp ⟨e, hr⟩
                exact ⟨rfl, h1, h2, items, rfl, conv, hc, hcase⟩
              · intro _
                exact ⟨e, rfl⟩
            | ok t =>
              constructor
              · rintro ⟨e2, he⟩
                exact Except.noConfusion he
              · rintro ⟨-, -, -, items2, heq, conv, hc, hcase⟩
                obtain rfl : items2 = items := by
                  cases heq
                  rfl
                obtain ⟨e2, he⟩ := hiff2.mpr ⟨conv, hc, hcase⟩
                rw [hr] at he
                exact Except.noConfusion he
        · rw [Bool.not_eq_true] at h2
          have e2 : (DataType.claudeConversation == DataType.chatgptConversation) = false := rfl
          cases data <;> simp [estimateRecordCount, h1, h2, e2]
    · have e3 : (dataType == DataType.claudeConversation) = false := by
        simp only [beq_eq_false_iff_ne, ne_eq]
        exact hk
      refine iff_of_false ?_ (fun hcontra => hk hcontra.1)
      rintro ⟨e, he⟩
      unfold estimateRecordCount at he
      simp only [e3, Bool.false_and, Bool.false_eq_true, if_false] at he
      repeat' split at he
      all_goals exact Except.noConfusion he

/-- Witness for C4: the counting rules and the throw characterization
evaluated on concrete payloads (the ChatGPT count is the mapping key count
2, although only one node holds a message; the well-formed payloads do not
throw). -/
theorem estimateRecordCount_spec_witness :
    estimateRecordCount sampleClaudePayload .claudeConversation =
      .ok (some (.num (.int 1))) ∧
    estimateRecordCount (.arr [sampleClaudePayload]) .claudeConversation =
      .ok (some (.num (.int 1))) ∧
    estimateRecordCount sampleChatGPTPayload .chatgptConversation =
      .ok (some (.num (.int 2))) ∧
    estimateRecordCount (.arr [sampleChatGPTPayload]) .chatgptConversation =
      .ok (some (.num (.int 2))) ∧
    ((∃ e, estimateRecordCount sampleClaudePayload .claudeConversation = .error e) ↔
      (DataType.claudeConversation = DataType.claudeConversation ∧
       isClaudeConversation sampleClaudePayload = false ∧
       isClaudeConversations sampleClaudePayload = true ∧
       ∃ items, sampleClaudePayload = .arr items ∧ ∃ conv ∈ items,
         (jsGet conv "chat_messages" = some JsonValue.null ∨
          jsGet conv "chat_messages" = none))) :=
  ⟨(estimateRecordCount_spec.1 sampleClaudePayload rfl).trans rfl,
   (estimateRecordCount_spec.2.1 [sampleClaudePayload] rfl
     (fun conv hc => by
       rw [List.mem_singleton] at hc
       subst hc
       exact ⟨[.obj [("uuid", .str "m1"), ("text", .str "hi"),
         ("sender", .str "human")]], rfl⟩)).trans rfl,
   (estimateRecordCount_spec.2.2.1 sampleChatGPTPayload rfl).trans rfl,
   (estimateRecordCount_spec.2.2.2.1 [sampleChatGPTPayload] rfl).trans rfl,
   estimateRecordCount_spec.2.2.2.2 sampleClaudePayload .claudeConversation⟩

/-- C5: `validateClaudeConversation` returns its argument unchanged for a
strict single conversation and for a non-empty array whose elements all pass
the strict or loose Claude predicate; it returns the `FormatError` message
"Invalid Claude conversation format" in exactly every other case; and
`detectDataType` maps every strict single conversation to
`claude-conversation`. -/
theorem validateClaudeConversation_spec :
    (∀ data : JsonValue, isClaudeConversation data = true →
      validateClaudeConversation data = Except.ok data) ∧
    (∀ items : List JsonValue, items ≠ [] →
      (∀ item ∈ items, isClaudeConversation item = true ∨
        looksLikeClaudeConversation item = true) →
      validateClaudeConversation (.arr items) = Except.ok (.arr items)) ∧
    (∀ data : JsonValue,
      validateClaudeConversation data = Except.error "Invalid Claude conversation format" ↔
        (isClaudeConversation data = false ∧ isClaudeConversations data = false)) ∧
    (∀ (data : JsonValue) (filename : String), isClaudeConversation data = true →
      detectDataType data filename = DataType.claudeConversation) := by
  refine ⟨fun data h => ?_, fun items hne hall => ?_, fun data => ?_,
    fun data filename h => ?_⟩
  · simp [validateClaudeConversation, h]
  · have harr : isClaudeConversations (.arr items) = true := by
      show (if items.length == 0 then false
            else items.all fun item =>
              isClaudeConversation item || looksLikeClaudeConversation item) = true
      rw [if_neg (by simpa using hne), List.all_eq_true]
      intro item hitem
      rcases hall item hitem with h | h <;> simp [h]
    have hs : isClaudeConversation (.arr items) = false := rfl
    simp [validateClaudeConversation, hs, harr]
  · by_cases h1 : isClaudeConversation data = true
    · simp [validateClaudeConversation, h1]
    · rw [Bool.not_eq_true] at h1
      by_cases h2 : isClaudeConversations data = true
      · simp [validateClaudeConversation, h1, h2]
      · rw [Bool.not_eq_true] at h2
        simp [validateClaudeConversation, h1, h2]
  · cases data
    case obj fields =>
      simp [detectDataType, isObjectLike, h]
    all_goals simp [isClaudeConversation] at h

/-- Witness for C5: a strict single conversation is returned unchanged and
detected, a singleton array of a loose conversation is returned unchanged,
and an invalid payload yields the error. -/
theorem validateClaudeConversation_spec_witness :
    validateClaudeConversation sampleClaudePayload = Except.ok sampleClaudePayload ∧
    validateClaudeConversation (.arr [sampleLooseClaudePayload]) =
      Except.ok (.arr [sampleLooseClaudePayload]) ∧
    (validateClaudeConversation (JsonValue.str "nope") =
        Except.error "Invalid Claude conversation format" ↔
      (isClaudeConversation (JsonValue.str "nope") = false ∧
       isClaudeConversations (JsonValue.str "nope") = false)) ∧
    detectDataType sampleClaudePayload "export.json" = DataType.claudeConversation :=
  ⟨validateClaudeConversation_spec.1 sampleClaudePayload rfl,
   validateClaudeConversation_spec.2.1 [sampleLooseClaudePayload] (by simp)
     (fun item hitem => by
       rw [List.mem_singleton] at hitem
       subst hitem
       exact Or.inr rfl),
   validateClaudeConversation_spec.2.2.1 (JsonValue.str "nope"),
   validateClaudeConversation_spec.2.2.2 sampleClaudePayload "export.json" rfl⟩

/-- C6 counterexample: a single (non-array) object with an empty
`chat_messages` array and the five Claude keys is detected as
`claude-conversation` (via the loose structural check), contradicting the
claim that `detect` never returns `claude-conversation` for a single object
with empty `chat_messages`. -/
theorem detect_empty_chat_messages_counterexample :
    detectDataType sampleLooseClaudePayload "data.json" =
      DataType.claudeConversation := rfl

/-- C6 (amended): a single object with an empty `chat_messages` array never
satisfies the strict single-conversation predicate, so it cannot qualify as a
valid single conversation; `detectDataType` still returns
`claude-conversation` for it exactly when the loose structural check (the
five Claude keys) passes. -/
theorem detect_empty_chat_messages_amended (fields : List (String × JsonValue))
    (filename : String)
    (hEmpty : jsGet (.obj fields) "chat_messages" = some (.arr [])) :
    isClaudeConversation (.obj fields) = false ∧
    (detectDataType (.obj fields) filename = DataType.claudeConversation ↔
      looksLikeClaudeConversation (.obj fields) = true) := by
  have hstrict : isClaudeConversation (.obj fields) = false := by
    unfold isClaudeConversation
    rw [hEmpty]
    simp
  have hconvs : isClaudeConversations (.obj fields) = false := rfl
  refine ⟨hstrict, ⟨fun hdet => ?_, fun hl => ?_⟩⟩
  · by_contra hl
    rw [Bool.not_eq_true] at hl
    simp [detectDataType, isObjectLike, hstrict, hconvs, hl] at hdet
    repeat' split at hdet
    all_goals simp_all
  · simp [detectDataType, isObjectLike, hstrict, hconvs, hl]

/-- Witness for the amended C6: an object with only the `chat_messages` key
(loose check fails, so the detection equivalence is between two falsehoods). -/
theorem detect_empty_chat_messages_amended_witness :
    isClaudeConversation (.obj [("chat_messages", JsonValue.arr [])]) = false ∧
    (detectDataType (.obj [("chat_messages", JsonValue.arr [])]) "x.json" =
        DataType.claudeConversation ↔
      looksLikeClaudeConversation (.obj [("chat_messages", JsonValue.arr [])]) = true) :=
  detect_empty_chat_messages_amended [("chat_messages", JsonValue.arr [])] "x.json" rfl

/-- C8: every non-array, non-null object with the five keys `chat_messages`,
`uuid`, `name`, `created_at`, `updated_at` is detected as
`claude-conversation` whenever `chat_messages` is not an array, is an empty
array, or is a non-empty array whose first element is not an object: the
first-message field check only applies when `chat_messages` is a non-empty
array whose first element is an object, and is bypassed otherwise. -/
theorem looseClaude_firstMessage_bypass (fields : List (String × JsonValue))
    (filename : String)
    (hcm : hasKey (.obj fields) "chat_messages" = true)
    (huuid : hasKey (.obj fields) "uuid" = true)
    (hname : hasKey (.obj fields) "name" = true)
    (hcreated : hasKey (.obj fields) "created_at" = true)
    (hupdated : hasKey (.obj fields) "updated_at" = true)
    (hfirst : ∀ firstMessage rest,
      jsGet (.obj fields) "chat_messages" = some (.arr (firstMessage :: rest)) →
      isObjectLike firstMessage = false) :
    looksLikeClaudeConversation (.obj fields) = true ∧
    detectDataType (.obj fields) filename = DataType.claudeConversation := by
  have hloose : looksLikeClaudeConversation (.obj fields) = true := by
    unfold looksLikeClaudeConversation
    cases hv : jsGet (JsonValue.obj fields) "chat_messages" with
    | none => simp [hcm, huuid, hname, hcreated, hupdated]
    | some v =>
      cases v with
      | arr elems =>
        cases elems with
        | nil => simp [hcm, huuid, hname, hcreated, hupdated]
        | cons f rest =>
          have hf := hfirst f rest hv
          simp [hcm, huuid, hname, hcreated, hupdated, hf]
      | null => simp [hcm, huuid, hname, hcreated, hupdated]
      | bool b => simp [hcm, huuid, hname, hcreated, hupdated]
      | num n => simp [hcm, huuid, hname, hcreated, hupdated]
      | str s => simp [hcm, huuid, hname, hcreated, hupdated]
      | obj ofields => simp [hcm, huuid, hname, hcreated, hupdated]
  refine ⟨hloose, ?_⟩
  by_cases hstrict : isClaudeConversation (.obj fields) = true
  · simp [detectDataType, isObjectLike, hstrict]
  · rw [Bool.not_eq_true] at hstrict
    have hconvs : isClaudeConversations (.obj fields) = false := rfl
    simp [detectDataType, isObjectLike, hstrict, hconvs, hloose]

/-- Witness payload for C8: the five Claude keys with a non-array
`chat_messages`. -/
def sampleBypassPayload : JsonValue :=
  .obj [("chat_messages", .str "oops"), ("uuid", .str "u3"), ("name", .str "B"),
    ("created_at", .str "a"), ("updated_at", .str "b")]

/-- Witness for C8: the bypass payload passes the loose check and is detected
as `claude-conversation`. -/
theorem looseClaude_firstMessage_bypass_witness :
    looksLikeClaudeConversation sampleBypassPayload = true ∧
    detectDataType sampleBypassPayload "notes.json" = DataType.claudeConversation :=
  looseClaude_firstMessage_bypass
    [("chat_messages", .str "oops"), ("uuid", .str "u3"), ("name", .str "B"),
     ("created_at", .str "a"), ("updated_at", .str "b")] "notes.json"
    rfl rfl rfl rfl rfl
    (fun firstMessage rest h => by
      have hv : jsGet (JsonValue.obj [("chat_messages", .str "oops"), ("uuid", .str "u3"),
          ("name", .str "B"), ("created_at", .str "a"), ("updated_at", .str "b")])
          "chat_messages" = some (.str "oops") := rfl
      rw [hv] at h
      exact absurd (Option.some.inj h) (by simp))

/-- C9: a single object detected as `claude-conversation` only via the loose
structural check (strict single predicate false) gets no record count from
the estimator — it returns undefined without throwing — even though the
assigned kind is `claude-conversation`. -/
theorem looseOnly_single_recordCount_none (fields : List (String × JsonValue))
    (filename : String)
    (hloose : looksLikeClaudeConversation (.obj fields) = true)
    (hstrict : isClaudeConversation (.obj fields) = false) :
    detectDataType (.obj fields) filename = DataType.claudeConversation ∧
    estimateRecordCount (.obj fields) DataType.claudeConversation = .ok none := by
  have hconvs : isClaudeConversations (.obj fields) = false := rfl
  constructor
  · simp [detectDataType, isObjectLike, hstrict, hconvs, hloose]
  · have e1 : (DataType.claudeConversation == DataType.chatgptConversation) = false := rfl
    simp [estimateRecordCount, hstrict, hconvs, e1]

/-- Witness for C9: the loose-only payload (empty `chat_messages`) is
detected as Claude but the estimator reports no count. -/
theorem looseOnly_single_recordCount_none_witness :
    detectDataType sampleLooseClaudePayload "conv.json" = DataType.claudeConversation ∧
    estimateRecordCount sampleLooseClaudePayload DataType.claudeConversation = .ok none :=
  looseOnly_single_recordCount_none
    [("uuid", .str "u2"), ("name", .str "M"), ("created_at", .str "a"),
     ("updated_at", .str "b"), ("chat_messages", .arr [])] "conv.json" rfl rfl
